import Mathlib

/-!
Shallow embedding of `src/minerva/device/data_store.cpp` (class `minerva::DataStore`).

Modelling conventions:
* The table `std::map<uint64_t, DataState> data_states_` is an association list
  `List (Nat × DataState)` with unique keys (`StoreWF`).  `std::map` keeps keys
  sorted; the only observation that depends on iteration order is the
  commutative byte sum of `GetTotalBytes`, so list order is immaterial.
* A raw buffer pointer `void*` is `Option (List Int)`: `none` is the null
  pointer (the emptiness sentinel used by the code), `some buf` a buffer whose
  elements are the stored 32-bit float words (only zero-ness is ever observed).
* A fatal `CHECK` failure (glog aborts the process) is `Option.none` in the
  result; `some` is normal return.
* External backends are oracles passed to `CreateData`: `hostOk` is whether
  `calloc` succeeds (on success it returns zeroed storage, per the C standard;
  glibc returns a non-null pointer even for length 0), `devResult` is the
  `cudaMalloc` outcome (`none` an error status, `some buf` success with
  arbitrary, backend-defined contents).  `hasCuda` is the `HAS_CUDA` build flag.
* `reference_count`/amounts are C `int`, modelled as `Int`; `size_t length` is
  modelled as `Nat`, and the one place where `size_t` wrap-around can occur
  (the running sum of `GetTotalBytes`) reduces modulo `2 ^ 64`.
-/

namespace Minerva

/-- `enum MemTypes { CPU, GPU }` (`NUM_MEM_TYPES = 2`). -/
inductive MemTypes where
  | CPU
  | GPU
deriving DecidableEq, Repr

/-- `DataStore::DataState`: `length`, `reference_count`, `data_ptrs[NUM_MEM_TYPES]`. -/
structure DataState where
  length : Nat
  reference_count : Int
  cpu_ptr : Option (List Int)
  gpu_ptr : Option (List Int)
deriving DecidableEq, Repr

/-- `DataState::DataState()`: length 0, reference_count 0, all pointers null. -/
def DataState.init : DataState := ⟨0, 0, none, none⟩

/-- `ds.data_ptrs[type]`. -/
def DataState.data_ptrs (ds : DataState) : MemTypes → Option (List Int)
  | .CPU => ds.cpu_ptr
  | .GPU => ds.gpu_ptr

/-- `ds.data_ptrs[type] = p`. -/
def DataState.setPtr (ds : DataState) : MemTypes → Option (List Int) → DataState
  | .CPU, p => { ds with cpu_ptr := p }
  | .GPU, p => { ds with gpu_ptr := p }

/-- The table `data_states_`. -/
abbrev Store := List (Nat × DataState)

/-- `data_states_.find(id)` (first binding with the key). -/
def findDS : Store → Nat → Option DataState
  | [], _ => none
  | (k, d) :: rest, id => if k = id then some d else findDS rest id

/-- `DataStore::CheckValidity(id)`: `data_states_.find(id) != data_states_.end()`. -/
def CheckValidity (s : Store) (id : Nat) : Bool := (findDS s id).isSome

/-- Replace the value of the (first) binding of `id`, if present. -/
def updateDS : Store → Nat → DataState → Store
  | [], _, _ => []
  | (k, d) :: rest, id, ds => if k = id then (k, ds) :: rest else (k, d) :: updateDS rest id ds

/-- `data_states_.erase(id)`: remove the (first) binding of `id`. -/
def eraseDS : Store → Nat → Store
  | [], _ => []
  | (k, d) :: rest, id => if k = id then rest else (k, d) :: eraseDS rest id

/-- `data_states_[id]` (`std::map::operator[]`): return the existing record, or
default-insert `DataState.init` for an absent key and return that. -/
def mapIndex (s : Store) (id : Nat) : DataState × Store :=
  match findDS s id with
  | some ds => (ds, s)
  | none => (DataState.init, s ++ [(id, DataState.init)])

/-- `DataStore::GC(id)` (private; releasing the buffers does not change the
table, which is all the model tracks): look the record up via `operator[]`,
free each occupied pointer, erase the entry. -/
def GC (s : Store) (id : Nat) : Store :=
  eraseDS (mapIndex s id).2 id

/-- Outcomes of the external allocators for one `CreateData` call. -/
structure AllocOracle where
  hostOk : Bool
  devResult : Option (List Int)
deriving DecidableEq, Repr

/-- `DataStore::CreateData(id, type, length, rc)`. -/
def CreateData (hasCuda : Bool) (o : AllocOracle) (s : Store) (id : Nat)
    (ty : MemTypes) (length : Nat) (rc : Int) : Option Store :=
  let p := mapIndex s id
  let ds := p.1
  if ds.data_ptrs ty ≠ none then none      -- CHECK_EQ(ds.data_ptrs[type], 0)
  else if ¬ (ds.length = 0 ∨ ds.length = length) then none
                                            -- CHECK(ds.length == 0 || ds.length == length)
  else
    let ds1 : DataState := { ds with length := length, reference_count := rc }
    match ty with
    | .CPU =>
        -- ds.data_ptrs[type] = calloc(length, sizeof(float));  (result unchecked)
        let buf : Option (List Int) := if o.hostOk then some (List.replicate length 0) else none
        some (updateDS p.2 id (ds1.setPtr .CPU buf))
    | .GPU =>
        if hasCuda then
          match o.devResult with
          | some buf => some (updateDS p.2 id (ds1.setPtr .GPU (some buf)))
          | none => none                    -- CHECK_EQ(cudaMalloc(...), cudaSuccess)
        else none                           -- CHECK(false)

/-- `DataStore::GetData(id, type)`: returns the buffer and the table it leaves
behind (the code reads the record through `operator[]`). -/
def GetData (s : Store) (id : Nat) (ty : MemTypes) : Option (List Int × Store) :=
  if CheckValidity s id then
    let p := mapIndex s id
    match p.1.data_ptrs ty with
    | some buf => some (buf, p.2)
    | none => none                          -- CHECK_NE(ds.data_ptrs[type], 0)
  else none                                 -- CHECK(CheckValidity(id))

/-- `DataStore::DecrReferenceCount(id, amount)`. -/
def DecrReferenceCount (s : Store) (id : Nat) (amount : Int) : Option (Bool × Store) :=
  if CheckValidity s id then
    let p := mapIndex s id
    if amount ≤ p.1.reference_count then    -- CHECK_GE(ds.reference_count, amount)
      let ds1 : DataState := { p.1 with reference_count := p.1.reference_count - amount }
      let s1 := updateDS p.2 id ds1
      if ds1.reference_count = 0 then some (true, GC s1 id) else some (false, s1)
    else none
  else none

/-- `DataStore::IncrReferenceCount(id, amount)`: `DecrReferenceCount(id, -amount)`. -/
def IncrReferenceCount (s : Store) (id : Nat) (amount : Int) : Option (Bool × Store) :=
  DecrReferenceCount s id (-amount)

/-- `DataStore::SetReferenceCount(id, rc)`. -/
def SetReferenceCount (s : Store) (id : Nat) (rc : Int) : Option (Bool × Store) :=
  if CheckValidity s id then
    if 0 ≤ rc then                          -- CHECK_GE(rc, 0)
      let p := mapIndex s id
      let s1 := updateDS p.2 id { p.1 with reference_count := rc }
      if rc = 0 then some (true, GC s1 id) else some (false, s1)
    else none
  else none

/-- `DataStore::GetReferenceCount(id)` (const method). -/
def GetReferenceCount (s : Store) (id : Nat) : Option (Int × Store) :=
  if CheckValidity s id then
    match findDS s id with
    | some ds => some (ds.reference_count, s)
    | none => none
  else none

/-- `2 ^ 64`, the modulus of `size_t` arithmetic. -/
def M64 : Nat := 2 ^ 64

/-- `DataStore::GetTotalBytes(memtype)` (const method):
`total_bytes += ds.length * sizeof(float)` over records whose slot is occupied. -/
def GetTotalBytes (s : Store) (ty : MemTypes) : Nat × Store :=
  (s.foldl (fun acc e =>
      if (e.2.data_ptrs ty).isSome then (acc + e.2.length * 4 % M64) % M64 else acc) 0, s)

/-- `DataStore::FreeData(id)`. -/
def FreeData (s : Store) (id : Nat) : Option Store :=
  if CheckValidity s id then some (GC s id) else none

/-- The keys of the table. -/
def keys (s : Store) : List Nat := s.map Prod.fst

/-- Well-formedness maintained by `std::map`: one binding per key. -/
def StoreWF (s : Store) : Prop := (keys s).Nodup

instance (s : Store) : Decidable (StoreWF s) := by unfold StoreWF; infer_instance

/-! ### Specification-side byte accounting

The spec reads: the total is "the sum of `length × 4` over exactly the ids
currently holding a live residency in `space`".  These definitions follow that
sentence (a sum indexed by the set of ids), to be compared with the loop of
`GetTotalBytes`. -/

/-- Does `id` currently hold a live residency in `ty`? -/
def residentIn (s : Store) (ty : MemTypes) (id : Nat) : Bool :=
  match findDS s id with
  | some ds => (ds.data_ptrs ty).isSome
  | none => false

/-- The recorded `length × 4` of an id (0 for an unknown id). -/
def idBytes (s : Store) (id : Nat) : Nat :=
  (match findDS s id with
   | some ds => ds.length
   | none => 0) * 4

/-- The set of ids currently holding a live residency in `ty`. -/
def residentIds (s : Store) (ty : MemTypes) : Finset Nat :=
  (keys s).toFinset.filter (fun id => residentIn s ty id)

/-- Spec-side total: sum of `length × 4` over exactly the resident ids. -/
def liveBytes (s : Store) (ty : MemTypes) : Nat :=
  (residentIds s ty).sum (fun id => idBytes s id)

/-- Per-entry contribution of the `GetTotalBytes` loop, without wrap-around. -/
def entryBytes (ty : MemTypes) (e : Nat × DataState) : Nat :=
  if (e.2.data_ptrs ty).isSome then e.2.length * 4 else 0

/-- Every record in the table has a non-negative reference count. -/
def AllNonneg (s : Store) : Prop := ∀ e ∈ s, 0 ≤ (Prod.snd e).reference_count

instance (s : Store) : Decidable (AllNonneg s) := by
  unfold AllNonneg; exact List.decidableBAll _ s

/-! ### The caller-visible transition system -/

/-- One store operation that returned normally, seen as a transition on the table. -/
inductive Step : Store → Store → Prop where
  | create (hc : Bool) (o : AllocOracle) (s : Store) (id : Nat) (ty : MemTypes)
      (len : Nat) (rc : Int) (s2 : Store) (h : CreateData hc o s id ty len rc = some s2) :
      Step s s2
  | get (s : Store) (id : Nat) (ty : MemTypes) (buf : List Int) (s2 : Store)
      (h : GetData s id ty = some (buf, s2)) : Step s s2
  | incr (s : Store) (id : Nat) (k : Int) (b : Bool) (s2 : Store)
      (h : IncrReferenceCount s id k = some (b, s2)) : Step s s2
  | decr (s : Store) (id : Nat) (k : Int) (b : Bool) (s2 : Store)
      (h : DecrReferenceCount s id k = some (b, s2)) : Step s s2
  | setrc (s : Store) (id : Nat) (rc : Int) (b : Bool) (s2 : Store)
      (h : SetReferenceCount s id rc = some (b, s2)) : Step s s2
  | getrc (s : Store) (id : Nat) (v : Int) (s2 : Store)
      (h : GetReferenceCount s id = some (v, s2)) : Step s s2
  | total (s : Store) (ty : MemTypes) (s2 : Store) (h : (GetTotalBytes s ty).2 = s2) :
      Step s s2
  | freeD (s : Store) (id : Nat) (s2 : Store) (h : FreeData s id = some s2) : Step s s2

/-- Store states reachable from the freshly constructed (empty) `DataStore`. -/
inductive Reachable : Store → Prop where
  | empty : Reachable []
  | step {s s2 : Store} (hr : Reachable s) (hs : Step s s2) : Reachable s2

/-! ### Table lemmas -/

theorem findDS_eq_none_iff {s : Store} {id : Nat} : findDS s id = none ↔ id ∉ keys s := by
  induction s with
  | nil => simp [findDS, keys]
  | cons e rest ih =>
    obtain ⟨k, d⟩ := e
    by_cases hk : k = id
    · subst hk; simp [findDS, keys]
    · simp [findDS, hk, keys, ih, Ne.symm hk]

theorem keys_updateDS (s : Store) (id : Nat) (ds : DataState) :
    keys (updateDS s id ds) = keys s := by
  induction s with
  | nil => rfl
  | cons e rest ih =>
    obtain ⟨k, d⟩ := e
    by_cases hk : k = id
    · simp [updateDS, hk, keys]
    · simp only [updateDS, if_neg hk, keys, List.map_cons]
      rw [show List.map Prod.fst (updateDS rest id ds) = keys (updateDS rest id ds) from rfl, ih]
      rfl

theorem keys_eraseDS_sublist (s : Store) (id : Nat) :
    (keys (eraseDS s id)).Sublist (keys s) := by
  induction s with
  | nil => simp [eraseDS, keys]
  | cons e rest ih =>
    obtain ⟨k, d⟩ := e
    by_cases hk : k = id
    · simp only [eraseDS, hk, if_pos rfl, keys, List.map]
      exact (List.sublist_cons_self _ _)
    · simpa [eraseDS, hk, keys] using ih.cons₂ k

theorem StoreWF_updateDS {s : Store} (hwf : StoreWF s) (id : Nat) (ds : DataState) :
    StoreWF (updateDS s id ds) := by
  unfold StoreWF at hwf ⊢
  rw [keys_updateDS]; exact hwf

theorem StoreWF_eraseDS {s : Store} (hwf : StoreWF s) (id : Nat) :
    StoreWF (eraseDS s id) :=
  List.Nodup.sublist (keys_eraseDS_sublist s id) hwf

theorem StoreWF_append_fresh {s : Store} {id : Nat} (hwf : StoreWF s)
    (h : findDS s id = none) (d : DataState) : StoreWF (s ++ [(id, d)]) := by
  unfold StoreWF keys at hwf ⊢
  rw [List.map_append]
  simp only [List.map, List.nodup_append]
  exact ⟨hwf, List.nodup_singleton _, by
    intro a ha hb
    simp only [List.map, List.mem_singleton] at hb
    exact (findDS_eq_none_iff.mp h) (hb ▸ ha)⟩

theorem findDS_updateDS_self {s : Store} {id : Nat} {d : DataState} (ds : DataState)
    (h : findDS s id = some d) : findDS (updateDS s id ds) id = some ds := by
  induction s with
  | nil => simp [findDS] at h
  | cons e rest ih =>
    obtain ⟨k, d0⟩ := e
    by_cases hk : k = id
    · simp [updateDS, hk, findDS]
    · simp only [findDS, if_neg hk] at h
      simp [updateDS, hk, findDS, ih h]

theorem findDS_eraseDS_self {s : Store} (hwf : StoreWF s) (id : Nat) :
    findDS (eraseDS s id) id = none := by
  induction s with
  | nil => simp [eraseDS, findDS]
  | cons e rest ih =>
    obtain ⟨k, d⟩ := e
    have hwk : k ∉ keys rest := by
      have := hwf; unfold StoreWF keys at this
      simpa [keys] using (List.nodup_cons.mp this).1
    have hwr : StoreWF rest := by
      have := hwf; unfold StoreWF keys at this
      exact (List.nodup_cons.mp this).2
    by_cases hk : k = id
    · subst hk
      simp only [eraseDS, if_pos rfl]
      exact findDS_eq_none_iff.mpr hwk
    · simp [eraseDS, hk, findDS, ih hwr]

theorem findDS_append_fresh {s : Store} {id : Nat} (h : findDS s id = none) (d : DataState) :
    findDS (s ++ [(id, d)]) id = some d := by
  induction s with
  | nil => simp [findDS]
  | cons e rest ih =>
    obtain ⟨k, d0⟩ := e
    by_cases hk : k = id
    · simp [findDS, hk] at h
    · simp only [findDS, if_neg hk] at h
      simp [findDS, hk, ih h]

theorem mapIndex_of_some {s : Store} {id : Nat} {ds : DataState}
    (h : findDS s id = some ds) : mapIndex s id = (ds, s) := by
  unfold mapIndex; rw [h]

theorem mapIndex_of_none {s : Store} {id : Nat}
    (h : findDS s id = none) : mapIndex s id = (DataState.init, s ++ [(id, DataState.init)]) := by
  unfold mapIndex; rw [h]

/-! ### Operations on an absent id all fail the `CheckValidity` assertion -/

theorem CheckValidity_absent {s : Store} {id : Nat} (h : findDS s id = none) :
    CheckValidity s id = false := by
  unfold CheckValidity; rw [h]; rfl

theorem GetData_absent {s : Store} {id : Nat} (h : findDS s id = none) (ty : MemTypes) :
    GetData s id ty = none := by
  unfold GetData; rw [CheckValidity_absent h]; rfl

theorem GetReferenceCount_absent {s : Store} {id : Nat} (h : findDS s id = none) :
    GetReferenceCount s id = none := by
  unfold GetReferenceCount; rw [CheckValidity_absent h]; rfl

theorem DecrReferenceCount_absent {s : Store} {id : Nat} (h : findDS s id = none) (k : Int) :
    DecrReferenceCount s id k = none := by
  unfold DecrReferenceCount; rw [CheckValidity_absent h]; rfl

theorem IncrReferenceCount_absent {s : Store} {id : Nat} (h : findDS s id = none) (k : Int) :
    IncrReferenceCount s id k = none :=
  DecrReferenceCount_absent h (-k)

theorem SetReferenceCount_absent {s : Store} {id : Nat} (h : findDS s id = none) (rc : Int) :
    SetReferenceCount s id rc = none := by
  unfold SetReferenceCount; rw [CheckValidity_absent h]; rfl

theorem FreeData_absent {s : Store} {id : Nat} (h : findDS s id = none) :
    FreeData s id = none := by
  unfold FreeData; rw [CheckValidity_absent h]; rfl

/-! ### Shapes of successful operations -/

theorem CheckValidity_present {s : Store} {id : Nat} {ds : DataState}
    (h : findDS s id = some ds) : CheckValidity s id = true := by
  unfold CheckValidity; rw [h]; rfl

theorem GC_eq_eraseDS {s : Store} {id : Nat} {ds : DataState}
    (h : findDS s id = some ds) : GC s id = eraseDS s id := by
  unfold GC; rw [mapIndex_of_some h]

theorem findDS_GC_self {s : Store} {id : Nat} {d : DataState} (hwf : StoreWF s)
    (h : findDS s id = some d) : findDS (GC s id) id = none := by
  rw [GC_eq_eraseDS h]
  exact findDS_eraseDS_self hwf id

theorem GetData_state_eq {s : Store} {id : Nat} {ty : MemTypes} {buf : List Int} {s2 : Store}
    (h : GetData s id ty = some (buf, s2)) : s2 = s := by
  unfold GetData at h
  cases hfd : findDS s id with
  | none => rw [CheckValidity_absent hfd] at h; simp at h
  | some ds =>
    rw [CheckValidity_present hfd, if_pos rfl, mapIndex_of_some hfd] at h
    dsimp only at h
    cases hp : ds.data_ptrs ty with
    | none => rw [hp] at h; simp at h
    | some b0 =>
      rw [hp] at h
      simp only [Option.some.injEq, Prod.mk.injEq] at h
      exact h.2.symm

theorem GetReferenceCount_state_eq {s : Store} {id : Nat} {v : Int} {s2 : Store}
    (h : GetReferenceCount s id = some (v, s2)) : s2 = s := by
  unfold GetReferenceCount at h
  cases hfd : findDS s id with
  | none => rw [CheckValidity_absent hfd] at h; simp at h
  | some ds =>
    rw [CheckValidity_present hfd, if_pos rfl, hfd] at h
    simp only [Option.some.injEq, Prod.mk.injEq] at h
    exact h.2.symm

theorem DecrReferenceCount_some {s : Store} {id : Nat} {k : Int} {b : Bool} {s2 : Store}
    (h : DecrReferenceCount s id k = some (b, s2)) :
    ∃ ds : DataState, findDS s id = some ds ∧ k ≤ ds.reference_count ∧
      ((ds.reference_count = k ∧ b = true ∧
          s2 = GC (updateDS s id { ds with reference_count := ds.reference_count - k }) id) ∨
       (ds.reference_count ≠ k ∧ b = false ∧
          s2 = updateDS s id { ds with reference_count := ds.reference_count - k })) := by
  unfold DecrReferenceCount at h
  cases hfd : findDS s id with
  | none => rw [CheckValidity_absent hfd] at h; simp at h
  | some ds =>
    rw [CheckValidity_present hfd, if_pos rfl, mapIndex_of_some hfd] at h
    dsimp only at h
    refine ⟨ds, rfl, ?_⟩
    by_cases hle : k ≤ ds.reference_count
    · rw [if_pos hle] at h
      refine ⟨hle, ?_⟩
      by_cases hz : ds.reference_count - k = 0
      · rw [if_pos hz] at h
        simp only [Option.some.injEq, Prod.mk.injEq] at h
        exact Or.inl ⟨sub_eq_zero.mp hz, h.1.symm, h.2.symm⟩
      · rw [if_neg hz] at h
        simp only [Option.some.injEq, Prod.mk.injEq] at h
        exact Or.inr ⟨fun he => hz (by rw [he, sub_self]), h.1.symm, h.2.symm⟩
    · rw [if_neg hle] at h; simp at h

theorem SetReferenceCount_some {s : Store} {id : Nat} {rc : Int} {b : Bool} {s2 : Store}
    (h : SetReferenceCount s id rc = some (b, s2)) :
    ∃ ds : DataState, findDS s id = some ds ∧ 0 ≤ rc ∧
      ((rc = 0 ∧ b = true ∧
          s2 = GC (updateDS s id { ds with reference_count := rc }) id) ∨
       (rc ≠ 0 ∧ b = false ∧
          s2 = updateDS s id { ds with reference_count := rc })) := by
  unfold SetReferenceCount at h
  cases hfd : findDS s id with
  | none => rw [CheckValidity_absent hfd] at h; simp at h
  | some ds =>
    rw [CheckValidity_present hfd, if_pos rfl] at h
    by_cases hge : 0 ≤ rc
    · rw [if_pos hge, mapIndex_of_some hfd] at h
      dsimp only at h
      refine ⟨ds, rfl, hge, ?_⟩
      by_cases hz : rc = 0
      · rw [if_pos hz] at h
        simp only [Option.some.injEq, Prod.mk.injEq] at h
        exact Or.inl ⟨hz, h.1.symm, h.2.symm⟩
      · rw [if_neg hz] at h
        simp only [Option.some.injEq, Prod.mk.injEq] at h
        exact Or.inr ⟨hz, h.1.symm, h.2.symm⟩
    · rw [if_neg hge] at h; simp at h

theorem CreateData_some {hc : Bool} {o : AllocOracle} {s : Store} {id : Nat} {ty : MemTypes}
    {len : Nat} {rc : Int} {s2 : Store}
    (h : CreateData hc o s id ty len rc = some s2) :
    ∃ ds1 : DataState, s2 = updateDS (mapIndex s id).2 id ds1 ∧
      ds1.reference_count = rc ∧ ds1.length = len := by
  unfold CreateData at h
  set p := mapIndex s id with hp
  by_cases h1 : p.1.data_ptrs ty = none
  · rw [if_neg (not_not.mpr h1)] at h
    by_cases h2 : p.1.length = 0 ∨ p.1.length = len
    · rw [if_neg (not_not.mpr h2)] at h
      cases ty with
      | CPU =>
        dsimp only at h
        simp only [Option.some.injEq] at h
        exact ⟨_, h.symm, rfl, rfl⟩
      | GPU =>
        dsimp only at h
        cases hcu : hc with
        | false => rw [hcu] at h; simp at h
        | true =>
          rw [hcu, if_pos rfl] at h
          cases hd : o.devResult with
          | none => rw [hd] at h; simp at h
          | some buf =>
            rw [hd] at h
            simp only [Option.some.injEq] at h
            exact ⟨_, h.symm, rfl, rfl⟩
    · rw [if_pos h2] at h; simp at h
  · rw [if_pos h1] at h; simp at h

theorem FreeData_some {s : Store} {id : Nat} {s2 : Store}
    (h : FreeData s id = some s2) :
    ∃ ds : DataState, findDS s id = some ds ∧ s2 = GC s id := by
  unfold FreeData at h
  cases hfd : findDS s id with
  | none => rw [CheckValidity_absent hfd] at h; simp at h
  | some ds =>
    rw [CheckValidity_present hfd, if_pos rfl] at h
    simp only [Option.some.injEq] at h
    exact ⟨ds, rfl, h.symm⟩

/-! ### Entry membership and well-formedness preservation -/

theorem eraseDS_sublist (s : Store) (id : Nat) : (eraseDS s id).Sublist s := by
  induction s with
  | nil => simp [eraseDS]
  | cons e rest ih =>
    obtain ⟨k, d⟩ := e
    by_cases hk : k = id
    · simp only [eraseDS, if_pos hk]
      exact List.sublist_cons_self _ _
    · simp only [eraseDS, if_neg hk]
      exact ih.cons₂ (k, d)

theorem updateDS_cons (k : Nat) (d : DataState) (rest : Store) (id : Nat) (ds : DataState) :
    updateDS ((k, d) :: rest) id ds =
      if k = id then (k, ds) :: rest else (k, d) :: updateDS rest id ds := rfl

theorem mem_updateDS {s : Store} {id : Nat} {ds : DataState} {e : Nat × DataState}
    (h : e ∈ updateDS s id ds) : e = (id, ds) ∨ e ∈ s := by
  induction s with
  | nil => simp [updateDS] at h
  | cons e0 rest ih =>
    obtain ⟨k, d⟩ := e0
    by_cases hk : k = id
    · rw [updateDS_cons, if_pos hk] at h
      rcases List.mem_cons.mp h with h1 | h1
      · exact Or.inl (by rw [h1, hk])
      · exact Or.inr (List.mem_cons_of_mem _ h1)
    · rw [updateDS_cons, if_neg hk] at h
      rcases List.mem_cons.mp h with h1 | h1
      · exact Or.inr (h1 ▸ List.mem_cons_self _ _)
      · rcases ih h1 with h2 | h2
        · exact Or.inl h2
        · exact Or.inr (List.mem_cons_of_mem _ h2)

theorem mem_mapIndex_snd {s : Store} {id : Nat} {e : Nat × DataState}
    (h : e ∈ (mapIndex s id).2) : e ∈ s ∨ e = (id, DataState.init) := by
  unfold mapIndex at h
  cases hfd : findDS s id with
  | some ds => rw [hfd] at h; exact Or.inl h
  | none =>
    rw [hfd] at h
    simpa using (List.mem_append.mp h)

theorem StoreWF_mapIndex {s : Store} (hwf : StoreWF s) (id : Nat) :
    StoreWF (mapIndex s id).2 := by
  unfold mapIndex
  cases hfd : findDS s id with
  | some ds => exact hwf
  | none => exact StoreWF_append_fresh hwf hfd _

theorem StoreWF_GC {s : Store} (hwf : StoreWF s) (id : Nat) : StoreWF (GC s id) :=
  StoreWF_eraseDS (StoreWF_mapIndex hwf id) id

theorem Step_WF {s s2 : Store} (h : Step s s2) (hwf : StoreWF s) : StoreWF s2 := by
  cases h with
  | create hc o s id ty len rc s2 h =>
    obtain ⟨ds1, hs2, -, -⟩ := CreateData_some h
    rw [hs2]
    exact StoreWF_updateDS (StoreWF_mapIndex hwf id) id ds1
  | get s id ty buf s2 h => rw [GetData_state_eq h]; exact hwf
  | incr s id k b s2 h =>
    obtain ⟨ds, -, -, hcase⟩ := DecrReferenceCount_some h
    rcases hcase with ⟨-, -, hs2⟩ | ⟨-, -, hs2⟩
    · rw [hs2]; exact StoreWF_GC (StoreWF_updateDS hwf id _) id
    · rw [hs2]; exact StoreWF_updateDS hwf id _
  | decr s id k b s2 h =>
    obtain ⟨ds, -, -, hcase⟩ := DecrReferenceCount_some h
    rcases hcase with ⟨-, -, hs2⟩ | ⟨-, -, hs2⟩
    · rw [hs2]; exact StoreWF_GC (StoreWF_updateDS hwf id _) id
    · rw [hs2]; exact StoreWF_updateDS hwf id _
  | setrc s id rc b s2 h =>
    obtain ⟨ds, -, -, hcase⟩ := SetReferenceCount_some h
    rcases hcase with ⟨-, -, hs2⟩ | ⟨-, -, hs2⟩
    · rw [hs2]; exact StoreWF_GC (StoreWF_updateDS hwf id _) id
    · rw [hs2]; exact StoreWF_updateDS hwf id _
  | getrc s id v s2 h => rw [GetReferenceCount_state_eq h]; exact hwf
  | total s ty s2 h => rw [← h]; exact hwf
  | freeD s id s2 h =>
    obtain ⟨ds, -, hs2⟩ := FreeData_some h
    rw [hs2]; exact StoreWF_GC hwf id

theorem Reachable_WF {s : Store} (hr : Reachable s) : StoreWF s := by
  induction hr with
  | empty => simp [StoreWF, keys]
  | step hr hs ih => exact Step_WF hs ih

theorem M64_pos : 0 < M64 := by unfold M64; positivity

theorem GetTotalBytes_foldl (ty : MemTypes) (l : Store) (a : Nat) (ha : a < M64) :
    l.foldl (fun acc e =>
        if (e.2.data_ptrs ty).isSome then (acc + e.2.length * 4 % M64) % M64 else acc) a
      = (a + (l.map (entryBytes ty)).sum) % M64 := by
  induction l generalizing a with
  | nil => simp [Nat.mod_eq_of_lt ha]
  | cons e rest ih =>
    by_cases hp : (e.2.data_ptrs ty).isSome
    · simp only [List.foldl_cons, if_pos hp, List.map_cons, List.sum_cons, entryBytes]
      rw [ih _ (Nat.mod_lt _ M64_pos)]
      have h1 : ((a + e.2.length * 4 % M64) % M64 + (rest.map (entryBytes ty)).sum) % M64
          = (a + e.2.length * 4 % M64 + (rest.map (entryBytes ty)).sum) % M64 :=
        Nat.mod_add_mod _ _ _
      have h2 : a + e.2.length * 4 % M64 + (rest.map (entryBytes ty)).sum
          ≡ a + e.2.length * 4 + (rest.map (entryBytes ty)).sum [MOD M64] :=
        ((Nat.ModEq.refl a).add (Nat.mod_modEq _ _)).add (Nat.ModEq.refl _)
      rw [h1, h2, Nat.add_assoc]
    · simp only [List.foldl_cons, if_neg hp, List.map_cons, List.sum_cons, entryBytes,
        if_neg hp, Nat.zero_add]
      exact ih a ha

theorem findDS_cons (k : Nat) (d : DataState) (rest : Store) (id : Nat) :
    findDS ((k, d) :: rest) id = if k = id then some d else findDS rest id := rfl

theorem keys_cons (k : Nat) (d : DataState) (rest : Store) :
    keys ((k, d) :: rest) = k :: keys rest := rfl

theorem residentIn_cons_ne {k id : Nat} (hk : k ≠ id) (d : DataState) (rest : Store)
    (ty : MemTypes) : residentIn ((k, d) :: rest) ty id = residentIn rest ty id := by
  unfold residentIn; rw [findDS_cons, if_neg hk]

theorem residentIn_cons_self (k : Nat) (d : DataState) (rest : Store) (ty : MemTypes) :
    residentIn ((k, d) :: rest) ty k = (d.data_ptrs ty).isSome := by
  unfold residentIn; rw [findDS_cons, if_pos rfl]

theorem idBytes_cons_ne {k id : Nat} (hk : k ≠ id) (d : DataState) (rest : Store) :
    idBytes ((k, d) :: rest) id = idBytes rest id := by
  unfold idBytes; rw [findDS_cons, if_neg hk]

theorem idBytes_cons_self (k : Nat) (d : DataState) (rest : Store) :
    idBytes ((k, d) :: rest) k = d.length * 4 := by
  unfold idBytes; rw [findDS_cons, if_pos rfl]

theorem entry_sum_eq_liveBytes {s : Store} (hwf : StoreWF s) (ty : MemTypes) :
    (s.map (entryBytes ty)).sum = liveBytes s ty := by
  induction s with
  | nil => simp [liveBytes, residentIds, keys]
  | cons e rest ih =>
    obtain ⟨k, d⟩ := e
    have hnd := hwf
    unfold StoreWF at hnd
    rw [keys_cons, List.nodup_cons] at hnd
    obtain ⟨hk, hndr⟩ := hnd
    have hwr : StoreWF rest := hndr
    simp only [List.map_cons, List.sum_cons, ih hwr]
    unfold liveBytes residentIds
    rw [keys_cons, List.toFinset_cons, Finset.filter_insert]
    have hfc : Finset.filter (fun id => residentIn ((k, d) :: rest) ty id = true)
        (keys rest).toFinset
        = Finset.filter (fun id => residentIn rest ty id = true) (keys rest).toFinset := by
      apply Finset.filter_congr
      intro x hx
      have hxk : k ≠ x := fun he => hk (he ▸ List.mem_toFinset.mp hx)
      rw [residentIn_cons_ne hxk]
    have hsc : ∀ t : Finset Nat, t ⊆ (keys rest).toFinset →
        t.sum (fun id => idBytes ((k, d) :: rest) id) = t.sum (fun id => idBytes rest id) := by
      intro t ht
      apply Finset.sum_congr rfl
      intro x hx
      have hxk : k ≠ x := fun he => hk (he ▸ List.mem_toFinset.mp (ht hx))
      rw [idBytes_cons_ne hxk]
    by_cases hres : residentIn ((k, d) :: rest) ty k = true
    · rw [if_pos hres, hfc]
      have hknotin : k ∉ Finset.filter (fun id => residentIn rest ty id = true)
          (keys rest).toFinset :=
        fun hin => hk (List.mem_toFinset.mp (Finset.mem_of_mem_filter k hin))
      rw [Finset.sum_insert hknotin, idBytes_cons_self,
        hsc _ (Finset.filter_subset _ _)]
      have he : entryBytes ty (k, d) = d.length * 4 := by
        unfold entryBytes
        dsimp only
        rw [residentIn_cons_self] at hres
        rw [if_pos hres]
      rw [he]
    · rw [if_neg hres, hfc, hsc _ (Finset.filter_subset _ _)]
      have he : entryBytes ty (k, d) = 0 := by
        unfold entryBytes
        dsimp only
        rw [residentIn_cons_self] at hres
        rw [if_neg hres]
      rw [he, Nat.zero_add]

/-! ### Claim theorems -/

/-- C1: for a live id, a normally returning `DecrReferenceCount(id, k)` returns
`true` exactly when it is the call that brings the reference count to 0 (the
stored count equals `k`); after a `true` result the record is reclaimed, and
`GetData` / `GetReferenceCount` on that id abort (return `none`). -/
theorem C1_decr_true_iff_collects (s s2 : Store) (id : Nat) (k : Int) (ds : DataState)
    (b : Bool) (ty : MemTypes) (hwf : StoreWF s) (hds : findDS s id = some ds)
    (hrun : DecrReferenceCount s id k = some (b, s2)) :
    (b = true ↔ ds.reference_count = k) ∧
    (b = true → findDS s2 id = none ∧ GetData s2 id ty = none ∧
      GetReferenceCount s2 id = none) := by
  obtain ⟨ds0, hds0, hle, hcase⟩ := DecrReferenceCount_some hrun
  rw [hds] at hds0
  injection hds0 with hds0
  subst hds0
  rcases hcase with ⟨heq, hb, hs2⟩ | ⟨hne, hb, hs2⟩
  · have hnone : findDS s2 id = none := by
      rw [hs2]
      exact findDS_GC_self (StoreWF_updateDS hwf id _) (findDS_updateDS_self _ hds)
    exact ⟨⟨fun _ => heq, fun _ => hb⟩,
      fun _ => ⟨hnone, GetData_absent hnone ty, GetReferenceCount_absent hnone⟩⟩
  · subst hb
    exact ⟨iff_of_false (by simp) hne, fun hbt => by cases hbt⟩

/-- Witness for C1: store with id 1 at count 2, decremented by 2. -/
theorem C1_decr_true_iff_collects_w :
    (true = true ↔ (⟨3, 2, some [0, 0, 0], none⟩ : DataState).reference_count = 2) ∧
    (true = true → findDS [] 1 = none ∧ GetData [] 1 .CPU = none ∧
      GetReferenceCount [] 1 = none) :=
  C1_decr_true_iff_collects [(1, ⟨3, 2, some [0, 0, 0], none⟩)] [] 1 2 _ true .CPU
    (by decide) rfl rfl

/-- C2: creating an absent id in host space with a succeeding host allocator and
then reading it back yields a buffer of `n` elements that are all zero, for any
`n` and any initial reference count. -/
theorem C2_create_get_zeroed (hc : Bool) (o : AllocOracle) (s : Store) (id n : Nat) (rc : Int)
    (ho : o.hostOk = true) (habs : findDS s id = none) :
    ∃ s2 buf, CreateData hc o s id .CPU n rc = some s2 ∧
      GetData s2 id .CPU = some (buf, s2) ∧ buf.length = n ∧ ∀ x ∈ buf, x = 0 := by
  have hmi := mapIndex_of_none habs
  have hfd1 : findDS (s ++ [(id, DataState.init)]) id = some DataState.init :=
    findDS_append_fresh habs _
  refine ⟨updateDS (s ++ [(id, DataState.init)]) id ⟨n, rc, some (List.replicate n 0), none⟩,
    List.replicate n 0, ?_, ?_, List.length_replicate _ _, fun x hx => List.eq_of_mem_replicate hx⟩
  · unfold CreateData
    rw [hmi]
    simp [DataState.data_ptrs, DataState.init, DataState.setPtr, ho]
  · have hfd2 : findDS (updateDS (s ++ [(id, DataState.init)]) id
        ⟨n, rc, some (List.replicate n 0), none⟩) id
        = some ⟨n, rc, some (List.replicate n 0), none⟩ :=
      findDS_updateDS_self _ hfd1
    unfold GetData
    rw [CheckValidity_present hfd2, if_pos rfl, mapIndex_of_some hfd2]
    rfl

/-- Witness for C2: id 1, three elements, refcount 1. -/
theorem C2_create_get_zeroed_w :
    ∃ s2 buf, CreateData true ⟨true, none⟩ [] 1 .CPU 3 1 = some s2 ∧
      GetData s2 1 .CPU = some (buf, s2) ∧ buf.length = 3 ∧ ∀ x ∈ buf, x = 0 :=
  C2_create_get_zeroed true ⟨true, none⟩ [] 1 3 1 rfl rfl

/-- C3: on an id with no record (never created, or already reclaimed), every
query/mutation operation aborts: `GetData`, `GetReferenceCount`,
`IncrReferenceCount`, `DecrReferenceCount`, `SetReferenceCount`, `FreeData`
all return `none`. -/
theorem C3_absent_id_all_ops_abort (s : Store) (id : Nat) (ty : MemTypes) (k rc : Int)
    (h : findDS s id = none) :
    GetData s id ty = none ∧ GetReferenceCount s id = none ∧
    IncrReferenceCount s id k = none ∧ DecrReferenceCount s id k = none ∧
    SetReferenceCount s id rc = none ∧ FreeData s id = none :=
  ⟨GetData_absent h ty, GetReferenceCount_absent h, IncrReferenceCount_absent h k,
   DecrReferenceCount_absent h k, SetReferenceCount_absent h rc, FreeData_absent h⟩

/-- Witness for C3: id 5 on the empty store. -/
theorem C3_absent_id_all_ops_abort_w :
    GetData [] 5 .CPU = none ∧ GetReferenceCount [] 5 = none ∧
    IncrReferenceCount [] 5 1 = none ∧ DecrReferenceCount [] 5 1 = none ∧
    SetReferenceCount [] 5 1 = none ∧ FreeData [] 5 = none :=
  C3_absent_id_all_ops_abort [] 5 .CPU 1 1 rfl

/-- C4 counterexample: the unreduced equality fails on a reachable state.  A
single device create of length `2 ^ 62 + 1` is reachable — `cudaMalloc` is
asked for `length * sizeof(float)` in `size_t`, which wraps to a 4-byte
request that can succeed — and there the `size_t` running sum of
`GetTotalBytes` wraps to 4 while the mathematical sum of `length × 4` over the
resident ids is `2 ^ 64 + 4`. -/
theorem C4_cex_total_bytes_overflow :
    Reachable [(1, (⟨2 ^ 62 + 1, 1, none, some [0]⟩ : DataState))] ∧
    (GetTotalBytes [(1, (⟨2 ^ 62 + 1, 1, none, some [0]⟩ : DataState))] .GPU).1 = 4 ∧
    liveBytes [(1, (⟨2 ^ 62 + 1, 1, none, some [0]⟩ : DataState))] .GPU = 2 ^ 64 + 4 ∧
    (GetTotalBytes [(1, (⟨2 ^ 62 + 1, 1, none, some [0]⟩ : DataState))] .GPU).1 ≠
      liveBytes [(1, (⟨2 ^ 62 + 1, 1, none, some [0]⟩ : DataState))] .GPU :=
  ⟨Reachable.step Reachable.empty
      (Step.create true ⟨true, some [0]⟩ [] 1 .GPU (2 ^ 62 + 1) 1
        [(1, ⟨2 ^ 62 + 1, 1, none, some [0]⟩)] (by decide)),
    by decide, by decide, by decide⟩

/-- C4 amended: at every reachable store state, `GetTotalBytes(space)` equals
the sum of `length × 4` over exactly the ids currently holding a live residency
in `space`, reduced modulo `2 ^ 64` (`size_t` arithmetic) — so the two agree
exactly when that sum fits in `size_t`.  `liveBytes` is the id-set-indexed sum
written from the spec's sentence. -/
theorem C4_total_bytes_eq_liveBytes_mod (s : Store) (ty : MemTypes) (hr : Reachable s) :
    (GetTotalBytes s ty).1 = liveBytes s ty % M64 := by
  have hwf := Reachable_WF hr
  unfold GetTotalBytes
  dsimp only
  rw [GetTotalBytes_foldl ty s 0 M64_pos, entry_sum_eq_liveBytes hwf ty, Nat.zero_add]

/-- Witness for C4 amended: the state reached by create(1), create(2), free(1). -/
theorem C4_total_bytes_eq_liveBytes_mod_w :
    (GetTotalBytes [(2, (⟨5, 1, some [0, 0, 0, 0, 0], none⟩ : DataState))] .CPU).1 =
      liveBytes [(2, (⟨5, 1, some [0, 0, 0, 0, 0], none⟩ : DataState))] .CPU % M64 :=
  C4_total_bytes_eq_liveBytes_mod _ .CPU
    (Reachable.step (Reachable.step (Reachable.step Reachable.empty
        (Step.create true ⟨true, none⟩ [] 1 .CPU 3 1
          [(1, ⟨3, 1, some [0, 0, 0], none⟩)] rfl))
        (Step.create true ⟨true, none⟩ [(1, ⟨3, 1, some [0, 0, 0], none⟩)] 2 .CPU 5 1
          [(1, ⟨3, 1, some [0, 0, 0], none⟩), (2, ⟨5, 1, some [0, 0, 0, 0, 0], none⟩)] rfl))
      (Step.freeD [(1, ⟨3, 1, some [0, 0, 0], none⟩), (2, ⟨5, 1, some [0, 0, 0, 0, 0], none⟩)]
        1 [(2, ⟨5, 1, some [0, 0, 0, 0, 0], none⟩)] rfl))

/-- C5 counterexample: `CreateData(1, CPU, 1, 0)` returns normally and leaves a
record whose reference count is 0 in the table — `CreateData` never triggers
reclamation, so a zero count produced by creation is not transient. -/
theorem C5_cex_create_zero_rc_persists :
    CreateData true ⟨true, none⟩ [] 1 .CPU 1 0 = some [(1, ⟨1, 0, some [0], none⟩)] ∧
    findDS [(1, (⟨1, 0, some [0], none⟩ : DataState))] 1 = some ⟨1, 0, some [0], none⟩ ∧
    (⟨1, 0, some [0], none⟩ : DataState).reference_count = 0 := by
  decide

/-- C5 amended: a zero reference count produced by `DecrReferenceCount` or
`SetReferenceCount` is transient — when either returns, the touched record is
reclaimed if its count reached 0 (and otherwise is present with nonzero
count); `CreateData` with initial count 0, however, installs a persistent
zero-count record. -/
theorem C5_zero_rc_transient_decr_set (s s2 : Store) (id : Nat) (k rc : Int) (b : Bool)
    (hwf : StoreWF s) :
    (DecrReferenceCount s id k = some (b, s2) →
      (b = true → findDS s2 id = none) ∧
      (b = false → ∃ ds2, findDS s2 id = some ds2 ∧ ds2.reference_count ≠ 0)) ∧
    (SetReferenceCount s id rc = some (b, s2) →
      (b = true → findDS s2 id = none) ∧
      (b = false → ∃ ds2, findDS s2 id = some ds2 ∧ ds2.reference_count ≠ 0)) := by
  constructor
  · intro h
    obtain ⟨ds, hds, hle, hcase⟩ := DecrReferenceCount_some h
    rcases hcase with ⟨heq, hb, hs2⟩ | ⟨hne, hb, hs2⟩
    · refine ⟨fun _ => ?_, fun hbf => by rw [hb] at hbf; cases hbf⟩
      rw [hs2]
      exact findDS_GC_self (StoreWF_updateDS hwf id _) (findDS_updateDS_self _ hds)
    · refine ⟨fun hbt => (by rw [hb] at hbt; cases hbt), fun _ => ?_⟩
      refine ⟨{ ds with reference_count := ds.reference_count - k }, ?_, ?_⟩
      · rw [hs2]
        exact findDS_updateDS_self _ hds
      · exact sub_ne_zero.mpr hne
  · intro h
    obtain ⟨ds, hds, hge, hcase⟩ := SetReferenceCount_some h
    rcases hcase with ⟨heq, hb, hs2⟩ | ⟨hne, hb, hs2⟩
    · refine ⟨fun _ => ?_, fun hbf => by rw [hb] at hbf; cases hbf⟩
      rw [hs2]
      exact findDS_GC_self (StoreWF_updateDS hwf id _) (findDS_updateDS_self _ hds)
    · refine ⟨fun hbt => (by rw [hb] at hbt; cases hbt), fun _ => ?_⟩
      refine ⟨{ ds with reference_count := rc }, ?_, hne⟩
      rw [hs2]
      exact findDS_updateDS_self _ hds

/-- Witness for C5 amended: id 1 at count 2, decremented by 2 / set to 2. -/
theorem C5_zero_rc_transient_decr_set_w :
    (DecrReferenceCount [(1, ⟨3, 2, some [0, 0, 0], none⟩)] 1 2 = some (true, []) →
      (true = true → findDS [] 1 = none) ∧
      (true = false → ∃ ds2, findDS [] 1 = some ds2 ∧ ds2.reference_count ≠ 0)) ∧
    (SetReferenceCount [(1, ⟨3, 2, some [0, 0, 0], none⟩)] 1 2 = some (true, []) →
      (true = true → findDS [] 1 = none) ∧
      (true = false → ∃ ds2, findDS [] 1 = some ds2 ∧ ds2.reference_count ≠ 0)) :=
  C5_zero_rc_transient_decr_set [(1, ⟨3, 2, some [0, 0, 0], none⟩)] [] 1 2 2 true (by decide)

/-- C6 counterexample: `CreateData` stores a caller-supplied negative initial
reference count without any check, so a record's count can be negative after
an operation returns. -/
theorem C6_cex_create_negative_rc :
    CreateData true ⟨true, none⟩ [] 1 .CPU 1 (-3) = some [(1, ⟨1, -3, some [0], none⟩)] ∧
    (⟨1, -3, some [0], none⟩ : DataState).reference_count < 0 := by
  decide

theorem AllNonneg_updateDS {s : Store} {id : Nat} {ds : DataState}
    (hnn : AllNonneg s) (hds : 0 ≤ ds.reference_count) : AllNonneg (updateDS s id ds) := by
  intro e he
  rcases mem_updateDS he with h | h
  · rw [h]; exact hds
  · exact hnn e h

theorem AllNonneg_mapIndex {s : Store} (hnn : AllNonneg s) (id : Nat) :
    AllNonneg (mapIndex s id).2 := by
  intro e he
  rcases mem_mapIndex_snd he with h | h
  · exact hnn e h
  · rw [h]; exact le_refl 0

theorem AllNonneg_GC {s : Store} (hnn : AllNonneg s) (id : Nat) : AllNonneg (GC s id) := by
  intro e he
  exact AllNonneg_mapIndex hnn id e ((eraseDS_sublist _ id).mem he)

/-- C6 amended: the non-negativity invariant is preserved by every operation
provided `CreateData` is only invoked with a non-negative initial count
(`DecrReferenceCount` aborts when the amount exceeds the current count, so a
successful adjustment never drives a count below zero) — but `CreateData`
itself stores the caller-supplied initial count unvalidated, so a negative
initial count is accepted and breaks the invariant. -/
theorem C6_refcount_nonneg_preserved (hc : Bool) (o : AllocOracle) (s s2 : Store) (id : Nat)
    (ty : MemTypes) (len : Nat) (rc k v : Int) (b : Bool) (buf : List Int) (ds : DataState)
    (hnn : AllNonneg s) :
    (0 ≤ rc → CreateData hc o s id ty len rc = some s2 → AllNonneg s2) ∧
    (GetData s id ty = some (buf, s2) → AllNonneg s2) ∧
    (IncrReferenceCount s id k = some (b, s2) → AllNonneg s2) ∧
    (DecrReferenceCount s id k = some (b, s2) → AllNonneg s2) ∧
    (SetReferenceCount s id rc = some (b, s2) → AllNonneg s2) ∧
    (GetReferenceCount s id = some (v, s2) → AllNonneg s2) ∧
    (FreeData s id = some s2 → AllNonneg s2) ∧
    (findDS s id = some ds → ds.reference_count < k → DecrReferenceCount s id k = none) := by
  have hdecr : ∀ k2, DecrReferenceCount s id k2 = some (b, s2) → AllNonneg s2 := by
    intro k2 h
    obtain ⟨ds0, hds0, hle, hcase⟩ := DecrReferenceCount_some h
    have hnew : (0 : Int) ≤ ds0.reference_count - k2 := sub_nonneg.mpr hle
    rcases hcase with ⟨-, -, hs2⟩ | ⟨-, -, hs2⟩
    · rw [hs2]; exact AllNonneg_GC (AllNonneg_updateDS hnn hnew) id
    · rw [hs2]; exact AllNonneg_updateDS hnn hnew
  refine ⟨?_, ?_, hdecr (-k), hdecr k, ?_, ?_, ?_, ?_⟩
  · intro hge h
    obtain ⟨ds1, hs2, hrc, -⟩ := CreateData_some h
    rw [hs2]
    exact AllNonneg_updateDS (AllNonneg_mapIndex hnn id) (hrc ▸ hge)
  · intro h
    rw [GetData_state_eq h]; exact hnn
  · intro h
    obtain ⟨ds0, hds0, hge, hcase⟩ := SetReferenceCount_some h
    rcases hcase with ⟨-, -, hs2⟩ | ⟨-, -, hs2⟩
    · rw [hs2]; exact AllNonneg_GC (AllNonneg_updateDS hnn hge) id
    · rw [hs2]; exact AllNonneg_updateDS hnn hge
  · intro h
    rw [GetReferenceCount_state_eq h]; exact hnn
  · intro h
    obtain ⟨ds0, -, hs2⟩ := FreeData_some h
    rw [hs2]; exact AllNonneg_GC hnn id
  · intro hds0 hlt
    unfold DecrReferenceCount
    rw [CheckValidity_present hds0, if_pos rfl, mapIndex_of_some hds0]
    dsimp only
    rw [if_neg (not_le.mpr hlt)]

/-- Witness for C6 amended: id 1 at count 2 in a singleton store, amount 1. -/
theorem C6_refcount_nonneg_preserved_w :
    (0 ≤ (1 : Int) →
      CreateData true ⟨true, none⟩ [(1, ⟨3, 2, some [0, 0, 0], none⟩)] 1 .CPU 4 1 =
        some [(1, ⟨3, 1, some [0, 0, 0], none⟩)] →
      AllNonneg [(1, ⟨3, 1, some [0, 0, 0], none⟩)]) ∧
    (GetData [(1, ⟨3, 2, some [0, 0, 0], none⟩)] 1 .CPU =
        some ([0, 0, 0], [(1, ⟨3, 1, some [0, 0, 0], none⟩)]) →
      AllNonneg [(1, ⟨3, 1, some [0, 0, 0], none⟩)]) ∧
    (IncrReferenceCount [(1, ⟨3, 2, some [0, 0, 0], none⟩)] 1 1 =
        some (false, [(1, ⟨3, 1, some [0, 0, 0], none⟩)]) →
      AllNonneg [(1, ⟨3, 1, some [0, 0, 0], none⟩)]) ∧
    (DecrReferenceCount [(1, ⟨3, 2, some [0, 0, 0], none⟩)] 1 1 =
        some (false, [(1, ⟨3, 1, some [0, 0, 0], none⟩)]) →
      AllNonneg [(1, ⟨3, 1, some [0, 0, 0], none⟩)]) ∧
    (SetReferenceCount [(1, ⟨3, 2, some [0, 0, 0], none⟩)] 1 1 =
        some (false, [(1, ⟨3, 1, some [0, 0, 0], none⟩)]) →
      AllNonneg [(1, ⟨3, 1, some [0, 0, 0], none⟩)]) ∧
    (GetReferenceCount [(1, ⟨3, 2, some [0, 0, 0], none⟩)] 1 =
        some (2, [(1, ⟨3, 1, some [0, 0, 0], none⟩)]) →
      AllNonneg [(1, ⟨3, 1, some [0, 0, 0], none⟩)]) ∧
    (FreeData [(1, ⟨3, 2, some [0, 0, 0], none⟩)] 1 =
        some [(1, ⟨3, 1, some [0, 0, 0], none⟩)] →
      AllNonneg [(1, ⟨3, 1, some [0, 0, 0], none⟩)]) ∧
    (findDS [(1, ⟨3, 2, some [0, 0, 0], none⟩)] 1 = some ⟨3, 2, some [0, 0, 0], none⟩ →
      (⟨3, 2, some [0, 0, 0], none⟩ : DataState).reference_count < 1 →
      DecrReferenceCount [(1, ⟨3, 2, some [0, 0, 0], none⟩)] 1 1 = none) :=
  C6_refcount_nonneg_preserved true ⟨true, none⟩ [(1, ⟨3, 2, some [0, 0, 0], none⟩)]
    [(1, ⟨3, 1, some [0, 0, 0], none⟩)] 1 .CPU 4 1 1 2
    false [0, 0, 0] ⟨3, 2, some [0, 0, 0], none⟩ (by decide)

/-- C7 counterexample: a record whose recorded length is 0 (created with
length 0 in host space) passes the length check for any new length, so
`create(1, Host, 0, 1)` followed by `create(1, Device, 5, 1)` with `0 ≠ 5`
returns normally instead of aborting. -/
theorem C7_cex_zero_length_accepts_any :
    CreateData true ⟨true, some [9, 9, 9, 9, 9]⟩ [] 1 .CPU 0 1 =
      some [(1, ⟨0, 1, some [], none⟩)] ∧
    CreateData true ⟨true, some [9, 9, 9, 9, 9]⟩ [(1, ⟨0, 1, some [], none⟩)] 1 .GPU 5 1 =
      some [(1, ⟨5, 1, some [], some [9, 9, 9, 9, 9]⟩)] ∧
    (0 : Nat) ≠ 5 := by
  decide

/-- C7 amended: `CreateData` on an id whose existing record has a nonzero
recorded length `n1` aborts for any length argument `n2 ≠ n1` (in any space,
with any allocator outcome); a recorded length of 0 is treated as "no length
recorded yet" and accepts any new length. -/
theorem C7_create_length_mismatch_aborts (hc : Bool) (o : AllocOracle) (s : Store) (id : Nat)
    (ty : MemTypes) (n2 : Nat) (rc : Int) (ds : DataState)
    (hds : findDS s id = some ds) (h0 : ds.length ≠ 0) (hne : ds.length ≠ n2) :
    CreateData hc o s id ty n2 rc = none := by
  unfold CreateData
  rw [mapIndex_of_some hds]
  dsimp only
  by_cases hp : ds.data_ptrs ty = none
  · rw [if_neg (not_not.mpr hp), if_pos (by
      intro hor
      rcases hor with h | h
      · exact h0 h
      · exact hne h)]
  · rw [if_pos hp]

/-- Witness for C7 amended: id 1 recorded at length 3, re-created at length 5. -/
theorem C7_create_length_mismatch_aborts_w :
    CreateData true ⟨true, none⟩ [(1, ⟨3, 1, some [0, 0, 0], none⟩)] 1 .GPU 5 1 = none :=
  C7_create_length_mismatch_aborts true ⟨true, none⟩ [(1, ⟨3, 1, some [0, 0, 0], none⟩)] 1
    .GPU 5 1 ⟨3, 1, some [0, 0, 0], none⟩ rfl (by decide) (by decide)

/-- C8: `FreeData(id)` on a live id succeeds regardless of the current (possibly
nonzero) reference count, removes the record, and every subsequent operation
on that id aborts; `FreeData` on an unknown id aborts. -/
theorem C8_free_reclaims_unconditionally (s : Store) (id : Nat) (ty : MemTypes) (k rc : Int)
    (ds : DataState) (hwf : StoreWF s) :
    (findDS s id = none → FreeData s id = none) ∧
    (findDS s id = some ds → ∃ s2, FreeData s id = some s2 ∧ findDS s2 id = none ∧
      GetData s2 id ty = none ∧ GetReferenceCount s2 id = none ∧
      IncrReferenceCount s2 id k = none ∧ DecrReferenceCount s2 id k = none ∧
      SetReferenceCount s2 id rc = none ∧ FreeData s2 id = none) := by
  refine ⟨fun h => FreeData_absent h, fun h => ?_⟩
  have hnone : findDS (GC s id) id = none := findDS_GC_self hwf h
  refine ⟨GC s id, ?_, hnone, GetData_absent hnone ty, GetReferenceCount_absent hnone,
    IncrReferenceCount_absent hnone k, DecrReferenceCount_absent hnone k,
    SetReferenceCount_absent hnone rc, FreeData_absent hnone⟩
  unfold FreeData
  rw [CheckValidity_present h, if_pos rfl]

/-- Witness for C8: id 1 live at nonzero count 7. -/
theorem C8_free_reclaims_unconditionally_w :
    (findDS [(1, (⟨3, 7, some [0, 0, 0], none⟩ : DataState))] 1 = none →
      FreeData [(1, (⟨3, 7, some [0, 0, 0], none⟩ : DataState))] 1 = none) ∧
    (findDS [(1, (⟨3, 7, some [0, 0, 0], none⟩ : DataState))] 1 =
        some ⟨3, 7, some [0, 0, 0], none⟩ →
      ∃ s2, FreeData [(1, (⟨3, 7, some [0, 0, 0], none⟩ : DataState))] 1 = some s2 ∧
        findDS s2 1 = none ∧ GetData s2 1 .CPU = none ∧ GetReferenceCount s2 1 = none ∧
        IncrReferenceCount s2 1 2 = none ∧ DecrReferenceCount s2 1 2 = none ∧
        SetReferenceCount s2 1 4 = none ∧ FreeData s2 1 = none) :=
  C8_free_reclaims_unconditionally [(1, ⟨3, 7, some [0, 0, 0], none⟩)] 1 .CPU 2 4
    ⟨3, 7, some [0, 0, 0], none⟩ (by decide)

/-- C9 (code bug): when the host allocator fails (`calloc` returns null),
`CreateData` stores the null pointer and returns normally, leaving the record's
host slot unallocated — no CHECK guards the `calloc` result, unlike the device
path, whose allocation failure is fatal. -/
theorem C9_host_alloc_failure_not_fatal :
    CreateData true ⟨false, none⟩ [] 1 .CPU 5 1 = some [(1, ⟨5, 1, none, none⟩)] ∧
    (⟨5, 1, none, none⟩ : DataState).data_ptrs .CPU = none ∧
    CreateData true ⟨true, none⟩ [] 1 .GPU 5 1 = none := by
  decide

/-- C10: `GetData`, `GetReferenceCount` and `GetTotalBytes` are observationally
read-only — whenever they return normally, the table they leave behind is the
table they started from; in particular `GetData` never inserts a record for
the queried id even though it reads the record through `operator[]`. -/
theorem C10_reads_leave_table_unchanged (s s2 s3 : Store) (id : Nat) (ty : MemTypes)
    (buf : List Int) (v : Int) :
    (GetData s id ty = some (buf, s2) → s2 = s) ∧
    (GetReferenceCount s id = some (v, s3) → s3 = s) ∧
    (GetTotalBytes s ty).2 = s :=
  ⟨fun h => GetData_state_eq h, fun h => GetReferenceCount_state_eq h, rfl⟩

/-- Witness for C10: reads on a singleton store. -/
theorem C10_reads_leave_table_unchanged_w :
    (GetData [(1, (⟨3, 2, some [0, 0, 0], none⟩ : DataState))] 1 .CPU =
        some ([0, 0, 0], [(1, (⟨3, 2, some [0, 0, 0], none⟩ : DataState))]) →
      [(1, (⟨3, 2, some [0, 0, 0], none⟩ : DataState))] =
        [(1, (⟨3, 2, some [0, 0, 0], none⟩ : DataState))]) ∧
    (GetReferenceCount [(1, (⟨3, 2, some [0, 0, 0], none⟩ : DataState))] 1 =
        some (2, [(1, (⟨3, 2, some [0, 0, 0], none⟩ : DataState))]) →
      [(1, (⟨3, 2, some [0, 0, 0], none⟩ : DataState))] =
        [(1, (⟨3, 2, some [0, 0, 0], none⟩ : DataState))]) ∧
    (GetTotalBytes [(1, (⟨3, 2, some [0, 0, 0], none⟩ : DataState))] .CPU).2 =
      [(1, (⟨3, 2, some [0, 0, 0], none⟩ : DataState))] :=
  C10_reads_leave_table_unchanged [(1, ⟨3, 2, some [0, 0, 0], none⟩)]
    [(1, ⟨3, 2, some [0, 0, 0], none⟩)] [(1, ⟨3, 2, some [0, 0, 0], none⟩)] 1 .CPU [0, 0, 0] 2

end Minerva
